import Mathlib

/-!
Shallow embedding of the nanobank ledger core (src/account/models.py,
src/transfer/models.py, src/transfer/managers.py, src/transfer/tasks.py).

Monetary values are exact decimals with two decimal places in the source
(Django DecimalField, addition/subtraction/comparison only); we model them
as integers (an exact scaling of the fixed-point decimals), which is faithful
for the +, -, <, ≤ arithmetic the code performs.

Accounts live in a relational store keyed by primary key; we model the store
as a total map from account id to the account record, plus the table of
Transfer rows and the table of ScheduledPayment rows (indexed by position,
standing for primary key order).  Every operation in the source runs inside
transaction.atomic: an exception rolls back every mutation of the unit of
work, so an operation is modelled as a function returning
`Except TransferException State`, where the `.error` outcome leaves the state
unchanged by construction (the rollback).
-/

/-- Statuses of ScheduledPayment (transfer/models.py, IntegerChoices). -/
inductive Status where
  | PENDING
  | DONE
  | CANCELED
  | FAILED
deriving Repr, DecidableEq

/-- account/models.py Account: balance and reserved_amount (owner and the
unique number play no role in the claims). -/
structure Account where
  balance : Int
  reserved_amount : Int
deriving Repr, DecidableEq

/-- transfer/models.py Transfer row: from_account, to_account, amount
(created_at plays no role in the claims). -/
structure Transfer where
  from_account : Nat
  to_account : Nat
  amount : Int
deriving Repr, DecidableEq

/-- transfer/models.py ScheduledPayment row.  `transfer` is the nullable
foreign key to the Transfer row produced at settlement, modelled as the
index of that row in the transfers table. -/
structure ScheduledPayment where
  from_account : Nat
  to_account : Nat
  amount : Int
  status : Status
  transfer : Option Nat
  on_date : Int
deriving Repr, DecidableEq

/-- transfer/exceptions.py: the three concrete TransferException subclasses
plus the NegativeAmountException sibling. -/
inductive TransferException where
  | InsufficientBalance
  | NegativeAmountException
  | DeleteEntityException
deriving Repr, DecidableEq

/-- The relational store: accounts keyed by id, the Transfer table and the
ScheduledPayment table in insertion order. -/
structure State where
  accounts : Nat → Account
  transfers : List Transfer
  payments : List ScheduledPayment

/-- Row update `Account.objects...update(balance=F('balance') + d)` on row `a`. -/
def State.adjustBalance (s : State) (a : Nat) (d : Int) : State :=
  { s with accounts := fun x =>
      if x = a then
        { s.accounts x with balance := (s.accounts x).balance + d }
      else s.accounts x }

/-- Row update `Account.objects...update(reserved_amount=F('reserved_amount') + d)`
on row `a`. -/
def State.adjustReserved (s : State) (a : Nat) (d : Int) : State :=
  { s with accounts := fun x =>
      if x = a then
        { s.accounts x with
            reserved_amount := (s.accounts x).reserved_amount + d }
      else s.accounts x }

/-- account/models.py `Account.get_max_transfer_amount`:
`balance - reserved_amount`. -/
def Account.get_max_transfer_amount (a : Account) : Int :=
  a.balance - a.reserved_amount

/-- The Django filter predicate
`from_account == a and status == Status.PENDING`. -/
def pendingFor (a : Nat) (p : ScheduledPayment) : Bool :=
  p.from_account == a && p.status == Status.PENDING

/-- Aggregate `filter(status=PENDING, from_account=a).aggregate(Sum('amount'))`
over a payment table. -/
def pendingSum (ps : List ScheduledPayment) (a : Nat) : Int :=
  ((ps.filter (pendingFor a)).map (fun p => p.amount)).sum

/-- account/models.py `Account.get_reserved_amount_for_scheduled_payment`:
filter this account's scheduled payments by status PENDING and aggregate
`Sum('amount')` (0 when there are none). -/
def State.get_reserved_amount_for_scheduled_payment
    (s : State) (a : Nat) : Int :=
  pendingSum s.payments a

/-- transfer/models.py `Transfer.do_transfer`, a single atomic unit:
reject amount < 0 with NegativeAmountException, reject
`from_account.balance < amount` with InsufficientBalance, otherwise
decrement the from row's balance, increment the to row's balance (two
sequential row updates, so a self-transfer nets to zero) and insert the
Transfer row. -/
def Transfer.do_transfer (s : State) (from_acc to_acc : Nat) (amount : Int) :
    Except TransferException State :=
  if amount < 0 then
    .error .NegativeAmountException
  else if (s.accounts from_acc).balance < amount then
    .error .InsufficientBalance
  else
    let s1 := (s.adjustBalance from_acc (-amount)).adjustBalance to_acc amount
    .ok { s1 with
            transfers := s1.transfers ++ [⟨from_acc, to_acc, amount⟩] }

/-- transfer/models.py `ScheduledPayment.create_scheduled_transfer`, atomic:
reject amount < 0, reject `get_max_transfer_amount() < amount`, otherwise
increment the from row's reserved_amount and insert the PENDING row. -/
def ScheduledPayment.create_scheduled_transfer
    (s : State) (from_acc to_acc : Nat) (amount : Int) (on_date : Int) :
    Except TransferException State :=
  if amount < 0 then
    .error .NegativeAmountException
  else if (s.accounts from_acc).get_max_transfer_amount < amount then
    .error .InsufficientBalance
  else
    let s1 := s.adjustReserved from_acc amount
    .ok { s1 with
            payments := s1.payments ++
              [⟨from_acc, to_acc, amount, Status.PENDING, none, on_date⟩] }

/-- transfer/models.py `ScheduledPayment.create_transfer` (settlement),
atomic, invoked on the row at index `i`: try do_transfer; on success save
the transfer link and keep status DONE; on InsufficientBalance set status
FAILED with no link; any other exception propagates (rolling the unit back);
in both non-propagating branches decrement the from row's reserved_amount
once and save the status. -/
def ScheduledPayment.create_transfer (s : State) (i : Nat) :
    Except TransferException State :=
  match s.payments[i]? with
  | none => .ok s
  | some p =>
    match Transfer.do_transfer s p.from_account p.to_account p.amount with
    | .ok s1 =>
      let linked : ScheduledPayment :=
        { p with transfer := some s.transfers.length }
      let s2 := { s1 with payments := s1.payments.set i linked }
      let s3 := s2.adjustReserved p.from_account (-p.amount)
      let settled : ScheduledPayment :=
        { p with transfer := some s.transfers.length, status := Status.DONE }
      .ok { s3 with payments := s3.payments.set i settled }
    | .error .InsufficientBalance =>
      let s3 := s.adjustReserved p.from_account (-p.amount)
      let failed : ScheduledPayment := { p with status := Status.FAILED }
      .ok { s3 with payments := s3.payments.set i failed }
    | .error e => .error e

/-- transfer/models.py `ScheduledPayment.cancel`, atomic, invoked on the row
at index `i`: decrement the from row's reserved_amount and set status
CANCELED.  The source has no PENDING-only guard. -/
def ScheduledPayment.cancel (s : State) (i : Nat) :
    Except TransferException State :=
  match s.payments[i]? with
  | none => .ok s
  | some p =>
    let s1 := s.adjustReserved p.from_account (-p.amount)
    let canceled : ScheduledPayment := { p with status := Status.CANCELED }
    .ok { s1 with payments := s1.payments.set i canceled }

/-- transfer/models.py `ScheduledPayment.delete`: redirects to cancel. -/
def ScheduledPayment.deleteOne (s : State) (i : Nat) :
    Except TransferException State :=
  ScheduledPayment.cancel s i

/-- transfer/managers.py `ScheduledPaymentQuerySet.delete`: raises
DeleteEntityException unconditionally, touching nothing. -/
def ScheduledPayment.querysetDelete (_s : State) :
    Except TransferException State :=
  .error .DeleteEntityException

/-- transfer/managers.py `ScheduledPaymentManager.pending(on_date__lte=now)`
as used by the task: the rows (by index) with status PENDING and
`on_date ≤ now`, evaluated once against the state at loop entry. -/
def dueIndices (s : State) (now : Int) : List Nat :=
  (List.range s.payments.length).filter (fun i =>
    match s.payments[i]? with
    | some p => p.status == Status.PENDING && decide (p.on_date ≤ now)
    | none => false)

/-- The `for scheduled_payment in scheduled_payments:` loop body of
transfer/tasks.py: settle each fetched row in order.  The source has no
per-item try/except, so an exception escaping `create_transfer` aborts the
loop; the second component records it, and the first component is the state
reached so far (each settlement already committed its own atomic block). -/
def runLoop : List Nat → State → State × Option TransferException
  | [], s => (s, none)
  | i :: rest, s =>
    match ScheduledPayment.create_transfer s i with
    | .ok s1 => runLoop rest s1
    | .error e => (s, some e)

/-- transfer/tasks.py `run_transfers_by_scheduled_payments`: fetch the
PENDING rows due at `now` and settle them in order. -/
def run_transfers_by_scheduled_payments (s : State) (now : Int) :
    State × Option TransferException :=
  runLoop (dueIndices s now) s

/-! ### Basic facts about the store primitives -/

theorem adjustBalance_payments (s : State) (a : Nat) (d : Int) :
    (s.adjustBalance a d).payments = s.payments := rfl

theorem adjustBalance_transfers (s : State) (a : Nat) (d : Int) :
    (s.adjustBalance a d).transfers = s.transfers := rfl

theorem adjustBalance_reserved (s : State) (a : Nat) (d : Int) (x : Nat) :
    ((s.adjustBalance a d).accounts x).reserved_amount =
      (s.accounts x).reserved_amount := by
  simp only [State.adjustBalance]
  by_cases h : x = a <;> simp [h]

theorem adjustBalance_balance (s : State) (a : Nat) (d : Int) (x : Nat) :
    ((s.adjustBalance a d).accounts x).balance =
      (s.accounts x).balance + (if x = a then d else 0) := by
  simp only [State.adjustBalance]
  by_cases h : x = a <;> simp [h]

theorem adjustReserved_payments (s : State) (a : Nat) (d : Int) :
    (s.adjustReserved a d).payments = s.payments := rfl

theorem adjustReserved_transfers (s : State) (a : Nat) (d : Int) :
    (s.adjustReserved a d).transfers = s.transfers := rfl

theorem adjustReserved_balance (s : State) (a : Nat) (d : Int) (x : Nat) :
    ((s.adjustReserved a d).accounts x).balance =
      (s.accounts x).balance := by
  simp only [State.adjustReserved]
  by_cases h : x = a <;> simp [h]

theorem adjustReserved_reserved (s : State) (a : Nat) (d : Int) (x : Nat) :
    ((s.adjustReserved a d).accounts x).reserved_amount =
      (s.accounts x).reserved_amount + (if x = a then d else 0) := by
  simp only [State.adjustReserved]
  by_cases h : x = a <;> simp [h]

/-! ### Facts about the PENDING aggregate -/

/-- Contribution of one row to an account's PENDING aggregate. -/
def contrib (p : ScheduledPayment) (a : Nat) : Int :=
  if pendingFor a p then p.amount else 0

theorem pendingSum_nil (a : Nat) : pendingSum [] a = 0 := rfl

theorem pendingSum_cons (p : ScheduledPayment) (ps : List ScheduledPayment)
    (a : Nat) :
    pendingSum (p :: ps) a = contrib p a + pendingSum ps a := by
  cases h : pendingFor a p <;>
    simp [pendingSum, contrib, List.filter_cons, h]

theorem pendingSum_append (ps qs : List ScheduledPayment) (a : Nat) :
    pendingSum (ps ++ qs) a = pendingSum ps a + pendingSum qs a := by
  simp [pendingSum, List.filter_append]

theorem pendingSum_set (ps : List ScheduledPayment) (i : Nat)
    (p q : ScheduledPayment) (a : Nat) (h : ps[i]? = some p) :
    pendingSum (ps.set i q) a =
      pendingSum ps a - contrib p a + contrib q a := by
  induction ps generalizing i with
  | nil => simp at h
  | cons x xs ih =>
    cases i with
    | zero =>
      simp only [List.getElem?_cons_zero, Option.some.injEq] at h
      subst h
      simp only [List.set_cons_zero, pendingSum_cons]
      ring
    | succ n =>
      simp only [List.getElem?_cons_succ] at h
      simp only [List.set_cons_succ, pendingSum_cons, ih n h]
      ring

/-! ### Unfolding lemmas for the operations -/

/-- Sequential immediate transfers (from, to, amount), each one atomic;
an exception stops the sequence (used to state conservation over a
sequence of successful transfers). -/
def runTransferSeq : List (Nat × Nat × Int) → State →
    Except TransferException State
  | [], s => .ok s
  | r :: rs, s =>
    match Transfer.do_transfer s r.1 r.2.1 r.2.2 with
    | .ok s1 => runTransferSeq rs s1
    | .error e => .error e

/-- A demonstration store: every account holds balance 1000 with nothing
reserved; both tables empty. -/
def demoState : State :=
  { accounts := fun _ => ⟨1000, 0⟩, transfers := [], payments := [] }

/-- Scheduling 100 from account 0 to account 1, iterated (concrete scenario
4 of the spec). -/
def schedNTimes : Nat → State → Except TransferException State
  | 0, s => .ok s
  | n + 1, s =>
    match ScheduledPayment.create_scheduled_transfer s 0 1 100 0 with
    | .ok s1 => schedNTimes n s1
    | .error e => .error e

/-- One PENDING scheduled payment of 100 from account 0 to account 1. -/
def demoPending : ScheduledPayment := ⟨0, 1, 100, Status.PENDING, none, 0⟩

/-- A store with one PENDING payment of 100 reserved on account 0. -/
def demoStateP : State :=
  { accounts := fun a => if a = 0 then ⟨1000, 100⟩ else ⟨1000, 0⟩,
    transfers := [],
    payments := [demoPending] }

/-- The reservation invariant of the spec: for every account, the cached
reserved_amount equals the recomputed PENDING aggregate. -/
def reservedInvariant (s : State) : Prop :=
  ∀ a, (s.accounts a).reserved_amount =
    s.get_reserved_amount_for_scheduled_payment a

/-- The three lifecycle operations a client can issue. -/
inductive Op where
  | schedule (from_acc to_acc : Nat) (amount : Int) (on_date : Int)
  | settle (i : Nat)
  | cancel (i : Nat)

/-- Dispatch an operation against the store. -/
def applyOp (s : State) : Op → Except TransferException State
  | .schedule f t amt d =>
      ScheduledPayment.create_scheduled_transfer s f t amt d
  | .settle i => ScheduledPayment.create_transfer s i
  | .cancel i => ScheduledPayment.cancel s i

/-- Guard of the amended C1: a settle or cancel may only target a row that
is still PENDING (schedules are unrestricted; an out-of-range index is
vacuously fine since the source method is invoked on an existing row). -/
def targetsPendingB (s : State) : Op → Bool
  | .schedule _ _ _ _ => true
  | .settle i =>
    match s.payments[i]? with
    | some p => p.status == Status.PENDING
    | none => true
  | .cancel i =>
    match s.payments[i]? with
    | some p => p.status == Status.PENDING
    | none => true

/-- A run of operations, each of which succeeds and respects the
PENDING-only guard, ending in the given final state. -/
def guardedRun : State → List Op → State → Prop
  | s, [], sf => sf = s
  | s, op :: rest, sf =>
    targetsPendingB s op = true ∧
      ∃ s1, applyOp s op = Except.ok s1 ∧ guardedRun s1 rest sf

/-- A run of operations exactly as the source allows them (no guard): each
must succeed, an exception stops the run. -/
def runOps : State → List Op → Except TransferException State
  | s, [] => .ok s
  | s, op :: rest =>
    match applyOp s op with
    | .ok s1 => runOps s1 rest
    | .error e => .error e

/-- The operation sequence of the C1 counterexample: schedule 50 from
account 0, cancel the row, cancel it again (the second cancel also succeeds
since the source has no PENDING-only guard). -/
def c1ops : List Op := [Op.schedule 0 1 50 0, Op.cancel 0, Op.cancel 0]

/-- The guarded operation sequence of the C1 witness: schedule 50 from
account 0, then cancel the still-PENDING row once. -/
def c1wops : List Op := [Op.schedule 0 1 50 0, Op.cancel 0]

/-- A store whose only scheduled payment is already CANCELED, with nothing
reserved (the reservation was already released by the first cancel). -/
def demoStateC : State :=
  { accounts := fun _ => ⟨1000, 0⟩,
    transfers := [],
    payments := [⟨0, 1, 100, Status.CANCELED, none, 0⟩] }

/-- A store with two due PENDING rows: one carrying a (corrupt) negative
amount whose settlement raises the uncaught NegativeAmountException, then a
perfectly settleable one. -/
def demoStateLoop : State :=
  { accounts := fun _ => ⟨1000, 49⟩,
    transfers := [],
    payments := [⟨0, 1, -1, Status.PENDING, none, 0⟩,
                 ⟨0, 1, 50, Status.PENDING, none, 0⟩] }

/-- A successful immediate transfer: the checks passed, the payment table is
untouched, the Transfer row is appended, no reservation changes and the two
balances move by exactly the amount (two sequential row updates). -/
theorem do_transfer_ok (s : State) (f t : Nat) (amt : Int) (s' : State)
    (h : Transfer.do_transfer s f t amt = .ok s') :
    0 ≤ amt ∧ amt ≤ (s.accounts f).balance ∧
    s'.payments = s.payments ∧
    s'.transfers = s.transfers ++ [⟨f, t, amt⟩] ∧
    (∀ x, (s'.accounts x).reserved_amount =
      (s.accounts x).reserved_amount) ∧
    (∀ x, (s'.accounts x).balance =
      (s.accounts x).balance +
        ((if x = f then -amt else 0) + (if x = t then amt else 0))) := by
  unfold Transfer.do_transfer at h
  by_cases h0 : amt < 0
  · simp [h0] at h
  by_cases h1 : (s.accounts f).balance < amt
  · simp [h0, h1] at h
  simp only [if_neg h0, if_neg h1, Except.ok.injEq] at h
  subst h
  refine ⟨by omega, by omega, rfl, rfl, fun x => ?_, fun x => ?_⟩
  · show (((s.adjustBalance f (-amt)).adjustBalance t amt).accounts
      x).reserved_amount = _
    rw [adjustBalance_reserved, adjustBalance_reserved]
  · show (((s.adjustBalance f (-amt)).adjustBalance t amt).accounts
      x).balance = _
    rw [adjustBalance_balance, adjustBalance_balance, add_assoc]

/-- The immediate transfer fails exactly on a negative amount or, the amount
being non-negative, on a raw balance below the amount. -/
theorem do_transfer_error_iff (s : State) (f t : Nat) (amt : Int) :
    (Transfer.do_transfer s f t amt =
        .error TransferException.NegativeAmountException ↔ amt < 0) ∧
    (Transfer.do_transfer s f t amt =
        .error TransferException.InsufficientBalance ↔
      (0 ≤ amt ∧ (s.accounts f).balance < amt)) := by
  unfold Transfer.do_transfer
  by_cases h0 : amt < 0
  · simp only [if_pos h0]
    constructor
    · simp [h0]
    · simp
      omega
  by_cases h1 : (s.accounts f).balance < amt
  · simp only [if_neg h0, if_pos h1]
    constructor
    · simp [h0]
    · simp
      omega
  · simp only [if_neg h0, if_neg h1]
    constructor
    · simp [h0]
    · simp
      omega

/-- Conservation of the balance total over one successful transfer. -/
theorem sum_balance_do_transfer (s : State) (f t : Nat) (amt : Int)
    (s' : State) (S : Finset Nat)
    (h : Transfer.do_transfer s f t amt = .ok s')
    (hf : f ∈ S) (ht : t ∈ S) :
    Finset.sum S (fun x => (s'.accounts x).balance) =
      Finset.sum S (fun x => (s.accounts x).balance) := by
  have hb := (do_transfer_ok s f t amt s' h).2.2.2.2.2
  calc Finset.sum S (fun x => (s'.accounts x).balance)
      = Finset.sum S (fun x => (s.accounts x).balance +
          ((if x = f then -amt else 0) + (if x = t then amt else 0))) :=
        Finset.sum_congr rfl (fun x _ => hb x)
    _ = Finset.sum S (fun x => (s.accounts x).balance) +
          (Finset.sum S (fun x => if x = f then -amt else 0) +
           Finset.sum S (fun x => if x = t then amt else 0)) := by
        rw [← Finset.sum_add_distrib, ← Finset.sum_add_distrib]
    _ = Finset.sum S (fun x => (s.accounts x).balance) := by
        rw [Finset.sum_ite_eq' S f (fun _ => -amt),
            Finset.sum_ite_eq' S t (fun _ => amt)]
        simp [hf, ht]

/-- C2: a successful `do_transfer` conserves the total balance over any
fixed set of accounts containing both endpoints; when the endpoints are
distinct, the from-balance drops by exactly the amount and the to-balance
rises by exactly the amount; consequently any sequence of successful
transfers whose endpoints stay inside a fixed set leaves that set's balance
total invariant. -/
theorem c2_conservation :
    (∀ s f t amt s', Transfer.do_transfer s f t amt = Except.ok s' →
      (∀ S : Finset Nat, f ∈ S → t ∈ S →
        Finset.sum S (fun x => (s'.accounts x).balance) =
          Finset.sum S (fun x => (s.accounts x).balance)) ∧
      (f ≠ t →
        (s'.accounts f).balance = (s.accounts f).balance - amt ∧
        (s'.accounts t).balance = (s.accounts t).balance + amt)) ∧
    (∀ reqs s s' (S : Finset Nat),
      (∀ r ∈ reqs, r.1 ∈ S ∧ r.2.1 ∈ S) →
      runTransferSeq reqs s = Except.ok s' →
      Finset.sum S (fun x => (s'.accounts x).balance) =
        Finset.sum S (fun x => (s.accounts x).balance)) := by
  constructor
  · intro s f t amt s' h
    refine ⟨fun S hf ht => sum_balance_do_transfer s f t amt s' S h hf ht,
      fun hne => ?_⟩
    have hb := (do_transfer_ok s f t amt s' h).2.2.2.2.2
    constructor
    · have := hb f
      rw [if_pos rfl, if_neg hne] at this
      omega
    · have := hb t
      rw [if_neg (Ne.symm hne), if_pos rfl] at this
      omega
  · intro reqs
    induction reqs with
    | nil =>
      intro s s' S _ h
      simp only [runTransferSeq, Except.ok.injEq] at h
      subst h
      rfl
    | cons r rs ih =>
      intro s s' S hmem h
      simp only [runTransferSeq] at h
      cases hr : Transfer.do_transfer s r.1 r.2.1 r.2.2 with
      | error e => rw [hr] at h; exact absurd h (by simp)
      | ok s1 =>
        rw [hr] at h
        have h1 := sum_balance_do_transfer s r.1 r.2.1 r.2.2 s1 S hr
          (hmem r (List.mem_cons_self r rs)).1
          (hmem r (List.mem_cons_self r rs)).2
        have h2 := ih s1 s' S
          (fun q hq => hmem q (List.mem_cons_of_mem r hq)) h
        rw [h2, h1]

/-- C2 witness: a concrete successful transfer of 100 between accounts 0
and 1 conserves the total over the set {0, 1} and moves each balance by
exactly 100. -/
theorem c2_witness :
    ∃ s', Transfer.do_transfer demoState 0 1 100 = Except.ok s' ∧
      Finset.sum {0, 1} (fun x => (s'.accounts x).balance) =
        Finset.sum {0, 1} (fun x => (demoState.accounts x).balance) ∧
      (s'.accounts 0).balance = (demoState.accounts 0).balance - 100 ∧
      (s'.accounts 1).balance = (demoState.accounts 1).balance + 100 := by
  refine ⟨_, rfl, ?_, ?_⟩
  · exact ((c2_conservation.1 demoState 0 1 100 _ rfl).1
      ({0, 1} : Finset Nat) (by decide) (by decide))
  · exact (c2_conservation.1 demoState 0 1 100 _ rfl).2 (by decide)

/-- C5: `do_transfer` raises NegativeAmountException exactly when the
amount is negative, and InsufficientBalance exactly when the amount is
non-negative but the from-account's raw balance is below it.  In the
embedding an `.error` outcome carries no state: the source checks run
before any row update and `transaction.atomic` rolls back the unit, so a
rejected call changes no balance and creates no Transfer row. -/
theorem c5_do_transfer_rejections (s : State) (f t : Nat) (amt : Int) :
    (Transfer.do_transfer s f t amt =
        .error TransferException.NegativeAmountException ↔ amt < 0) ∧
    (Transfer.do_transfer s f t amt =
        .error TransferException.InsufficientBalance ↔
      (0 ≤ amt ∧ (s.accounts f).balance < amt)) :=
  do_transfer_error_iff s f t amt

/-- C10: a self-transfer of any amount between 0 and the account's balance
succeeds, nets the balance to its old value (the decrement and increment
hit the same row sequentially) and records a Transfer row with equal
endpoints. -/
theorem c10_self_transfer (s : State) (a : Nat) (d : Int)
    (h0 : 0 ≤ d) (hb : d ≤ (s.accounts a).balance) :
    ∃ s', Transfer.do_transfer s a a d = Except.ok s' ∧
      (∀ x, (s'.accounts x).balance = (s.accounts x).balance) ∧
      (∀ x, (s'.accounts x).reserved_amount =
        (s.accounts x).reserved_amount) ∧
      s'.transfers = s.transfers ++ [⟨a, a, d⟩] := by
  unfold Transfer.do_transfer
  rw [if_neg (by omega), if_neg (by omega)]
  refine ⟨_, rfl, fun x => ?_, fun x => ?_, rfl⟩
  · show (((s.adjustBalance a (-d)).adjustBalance a d).accounts x).balance = _
    rw [adjustBalance_balance, adjustBalance_balance]
    by_cases h : x = a <;> simp [h]
  · show (((s.adjustBalance a (-d)).adjustBalance a d).accounts
      x).reserved_amount = _
    rw [adjustBalance_reserved, adjustBalance_reserved]

/-- C10 witness: the self-transfer of 100 on account 5 (balance 1000)
succeeds, leaves every balance as it was and appends the ⟨5, 5, 100⟩ row. -/
theorem c10_witness :
    (0:Int) ≤ 100 ∧ (100:Int) ≤ (demoState.accounts 5).balance ∧
    ∃ s', Transfer.do_transfer demoState 5 5 100 = Except.ok s' ∧
      (∀ x, (s'.accounts x).balance = (demoState.accounts x).balance) ∧
      (∀ x, (s'.accounts x).reserved_amount =
        (demoState.accounts x).reserved_amount) ∧
      s'.transfers = demoState.transfers ++ [⟨5, 5, 100⟩] :=
  ⟨by decide, by decide,
    c10_self_transfer demoState 5 100 (by decide) (by decide)⟩

/-- C9 counterexample: `do_transfer` with amount 0 succeeds and records a
Transfer row whose amount is 0, refuting "amount strictly greater than 0"
and "a call with amount equal to 0 does not produce a Transfer record". -/
theorem c9_counterexample :
    (Transfer.do_transfer demoState 0 1 0).toOption.map State.transfers =
      some [⟨0, 1, 0⟩] := rfl

/-- C9 amended: every Transfer row created through `do_transfer` has a
non-negative (not necessarily positive) amount; a call with amount 0
succeeds and does produce a Transfer row of amount 0. -/
theorem c9_amount_nonneg (s : State) (f t : Nat) (amt : Int) (s' : State)
    (h : Transfer.do_transfer s f t amt = Except.ok s') :
    s'.transfers = s.transfers ++ [⟨f, t, amt⟩] ∧ 0 ≤ amt :=
  ⟨(do_transfer_ok s f t amt s' h).2.2.2.1, (do_transfer_ok s f t amt s' h).1⟩

/-- C9 witness: the amount-0 transfer between accounts 0 and 1 appends its
(non-negative) row. -/
theorem c9_witness :
    ∃ s', Transfer.do_transfer demoState 0 1 0 = Except.ok s' ∧
      s'.transfers = demoState.transfers ++ [⟨0, 1, 0⟩] ∧ 0 ≤ (0:Int) := by
  refine ⟨_, rfl, ?_, le_refl 0⟩
  exact (c9_amount_nonneg demoState 0 1 0 _ rfl).1

/-- Errors of `do_transfer` are only NegativeAmountException or
InsufficientBalance. -/
theorem do_transfer_error_cases (s : State) (f t : Nat) (amt : Int)
    (e : TransferException)
    (h : Transfer.do_transfer s f t amt = .error e) :
    e = TransferException.NegativeAmountException ∨
      e = TransferException.InsufficientBalance := by
  unfold Transfer.do_transfer at h
  by_cases h0 : amt < 0
  · simp only [if_pos h0, Except.error.injEq] at h
    exact Or.inl h.symm
  by_cases h1 : (s.accounts f).balance < amt
  · simp only [if_neg h0, if_pos h1, Except.error.injEq] at h
    exact Or.inr h.symm
  · simp only [if_neg h0, if_neg h1] at h
    exact absurd h (by simp)

/-- C4: for a non-negative amount, `create_scheduled_transfer` raises
InsufficientBalance exactly when the amount exceeds the from-account's
spendable amount (`get_max_transfer_amount` = balance - reserved_amount);
on success it adds the amount to the from-account's reservation, appends
exactly one PENDING row, and changes no balance (and no other account's
reservation). -/
theorem c4_schedule_spec (s : State) (f t : Nat) (amt d : Int)
    (h0 : 0 ≤ amt) :
    (ScheduledPayment.create_scheduled_transfer s f t amt d =
        .error TransferException.InsufficientBalance ↔
      (s.accounts f).get_max_transfer_amount < amt) ∧
    (∀ s', ScheduledPayment.create_scheduled_transfer s f t amt d =
        Except.ok s' →
      (s'.accounts f).reserved_amount =
        (s.accounts f).reserved_amount + amt ∧
      s'.payments = s.payments ++ [⟨f, t, amt, Status.PENDING, none, d⟩] ∧
      s'.transfers = s.transfers ∧
      (∀ x, (s'.accounts x).balance = (s.accounts x).balance) ∧
      (∀ x, x ≠ f → (s'.accounts x).reserved_amount =
        (s.accounts x).reserved_amount)) := by
  unfold ScheduledPayment.create_scheduled_transfer
  rw [if_neg (by omega)]
  by_cases h1 : (s.accounts f).get_max_transfer_amount < amt
  · rw [if_pos h1]
    refine ⟨by simp [h1], fun s' h => absurd h (by simp)⟩
  · rw [if_neg h1]
    refine ⟨by simp [h1], fun s' h => ?_⟩
    rw [Except.ok.injEq] at h
    subst h
    refine ⟨?_, rfl, rfl, fun x => ?_, fun x hx => ?_⟩
    · show ((s.adjustReserved f amt).accounts f).reserved_amount = _
      rw [adjustReserved_reserved]
      simp
    · show ((s.adjustReserved f amt).accounts x).balance = _
      rw [adjustReserved_balance]
    · show ((s.adjustReserved f amt).accounts x).reserved_amount = _
      rw [adjustReserved_reserved]
      simp [hx]

/-- C4 witness: after ten successful schedules of 100 from account 0
(balance 1000, nothing reserved initially), the eleventh schedule of 100
is rejected with InsufficientBalance. -/
theorem c4_witness :
    ∃ s10, schedNTimes 10 demoState = Except.ok s10 ∧ 0 ≤ (100:Int) ∧
      ScheduledPayment.create_scheduled_transfer s10 0 1 100 0 =
        Except.error TransferException.InsufficientBalance := by
  refine ⟨_, rfl, by decide, ?_⟩
  exact (c4_schedule_spec _ 0 1 100 0 (by decide)).1.mpr (by decide)

/-- C6: deleting one ScheduledPayment row lands it in status CANCELED with
its reservation released and the row still present (same table length, same
row otherwise); deleting the queryset raises DeleteEntityException and, the
error outcome carrying no state, leaves every row as it was. -/
theorem c6_delete_redirects (s : State) (i : Nat) (p : ScheduledPayment)
    (h : s.payments[i]? = some p) :
    (∃ s', ScheduledPayment.deleteOne s i = Except.ok s' ∧
      s'.payments.length = s.payments.length ∧
      s'.payments[i]? = some ({ p with status := Status.CANCELED }) ∧
      (s'.accounts p.from_account).reserved_amount =
        (s.accounts p.from_account).reserved_amount - p.amount) ∧
    ScheduledPayment.querysetDelete s =
      Except.error TransferException.DeleteEntityException := by
  refine ⟨?_, rfl⟩
  have hlt : i < s.payments.length :=
    (List.getElem?_eq_some_iff.mp h).1
  unfold ScheduledPayment.deleteOne ScheduledPayment.cancel
  rw [h]
  refine ⟨_, rfl, ?_, ?_, ?_⟩
  · show ((s.adjustReserved p.from_account (-p.amount)).payments.set i
      _).length = _
    rw [List.length_set, adjustReserved_payments]
  · show ((s.adjustReserved p.from_account (-p.amount)).payments.set i
      _)[i]? = _
    rw [adjustReserved_payments]
    exact List.getElem?_set_self hlt
  · show ((s.adjustReserved p.from_account (-p.amount)).accounts
      p.from_account).reserved_amount = _
    rw [adjustReserved_reserved]
    simp
    ring

/-- C6 witness: deleting the single payment of `demoStateP` cancels it in
place, releases the 100 reservation and keeps the row; the queryset delete
raises. -/
theorem c6_witness :
    demoStateP.payments[0]? = some demoPending ∧
    ((∃ s', ScheduledPayment.deleteOne demoStateP 0 = Except.ok s' ∧
      s'.payments.length = demoStateP.payments.length ∧
      s'.payments[0]? =
        some ({ demoPending with status := Status.CANCELED }) ∧
      (s'.accounts demoPending.from_account).reserved_amount =
        (demoStateP.accounts demoPending.from_account).reserved_amount -
          demoPending.amount) ∧
    ScheduledPayment.querysetDelete demoStateP =
      Except.error TransferException.DeleteEntityException) :=
  ⟨rfl, c6_delete_redirects demoStateP 0 demoPending rfl⟩

/-- Shape of a settlement invoked on an existing row with a non-negative
amount: it succeeds, releases the reservation once, and rewrites the row to
DONE-with-link or FAILED according to the balance check of the inner
transfer. -/
theorem create_transfer_spec (s : State) (i : Nat) (p : ScheduledPayment)
    (h : s.payments[i]? = some p) (hamt : 0 ≤ p.amount) :
    ∃ s', ScheduledPayment.create_transfer s i = Except.ok s' ∧
      (∀ x, (s'.accounts x).reserved_amount =
        (s.accounts x).reserved_amount +
          (if x = p.from_account then -p.amount else 0)) ∧
      ((¬ (s.accounts p.from_account).balance < p.amount ∧
         s'.payments = s.payments.set i
           ({ p with transfer := some s.transfers.length,
                     status := Status.DONE })) ∨
       ((s.accounts p.from_account).balance < p.amount ∧
         s'.payments = s.payments.set i
           ({ p with status := Status.FAILED }))) := by
  unfold ScheduledPayment.create_transfer
  split
  · next hnone => rw [h] at hnone; exact absurd hnone (by simp)
  · next q hq =>
      rw [h, Option.some.injEq] at hq
      subst hq
      by_cases hb : (s.accounts p.from_account).balance < p.amount
      · rw [(do_transfer_error_iff s p.from_account p.to_account
          p.amount).2.mpr ⟨hamt, hb⟩]
        refine ⟨_, rfl, fun x => ?_, Or.inr ⟨hb, ?_⟩⟩
        · dsimp only
          rw [adjustReserved_reserved]
        · dsimp only
          rw [adjustReserved_payments]
      · cases hdt : Transfer.do_transfer s p.from_account p.to_account
          p.amount with
        | error e =>
          rcases do_transfer_error_cases _ _ _ _ _ hdt with rfl | rfl
          · have h0 := (do_transfer_error_iff s p.from_account
              p.to_account p.amount).1.mp hdt
            omega
          · exact absurd ((do_transfer_error_iff s p.from_account
              p.to_account p.amount).2.mp hdt).2 hb
        | ok s1 =>
          obtain ⟨-, -, hpay1, -, hres1, -⟩ := do_transfer_ok _ _ _ _ _ hdt
          refine ⟨_, rfl, fun x => ?_, Or.inl ⟨hb, ?_⟩⟩
          · dsimp only
            rw [adjustReserved_reserved]
            dsimp only
            rw [hres1 x]
          · dsimp only
            rw [adjustReserved_payments]
            dsimp only
            rw [List.set_set, hpay1]

/-- C3: settling a PENDING payment (existing row, no link yet, non-negative
amount) succeeds and moves the row to exactly one of DONE with the produced
Transfer linked, or FAILED with no link (the FAILED branch arising from the
inner InsufficientBalance), never both; and in the same unit of work the
from-account's reserved_amount drops by the payment's amount exactly once,
whichever the outcome. -/
theorem c3_settlement_exclusivity (s : State) (i : Nat)
    (p : ScheduledPayment) (h : s.payments[i]? = some p)
    (_hpend : p.status = Status.PENDING) (hlink : p.transfer = none)
    (hamt : 0 ≤ p.amount) :
    ∃ s', ScheduledPayment.create_transfer s i = Except.ok s' ∧
      (∃ q, s'.payments[i]? = some q ∧
        ((q.status = Status.DONE ∧
          q.transfer = some s.transfers.length) ∨
         (q.status = Status.FAILED ∧ q.transfer = none)) ∧
        ¬(q.status = Status.DONE ∧ q.status = Status.FAILED)) ∧
      (s'.accounts p.from_account).reserved_amount =
        (s.accounts p.from_account).reserved_amount - p.amount := by
  obtain ⟨s', hok, hres, hcases⟩ := create_transfer_spec s i p h hamt
  have hlt : i < s.payments.length := (List.getElem?_eq_some_iff.mp h).1
  refine ⟨s', hok, ?_, ?_⟩
  · rcases hcases with ⟨hb, hpay⟩ | ⟨hb, hpay⟩
    · refine ⟨{ p with transfer := some s.transfers.length, status := Status.DONE }, ?_, Or.inl ⟨rfl, rfl⟩, by simp⟩
      rw [hpay]
      exact List.getElem?_set_self hlt
    · refine ⟨{ p with status := Status.FAILED }, ?_,
        Or.inr ⟨rfl, hlink⟩, by simp⟩
      rw [hpay]
      exact List.getElem?_set_self hlt
  · rw [hres p.from_account, if_pos rfl]
    ring

/-- C3 witness: settling the single PENDING payment of `demoStateP`
(balance 1000 covers the amount 100) succeeds; the row lands in exactly one
of the two terminal outcomes and the 100 reservation is released once. -/
theorem c3_witness :
    demoStateP.payments[0]? = some demoPending ∧
    demoPending.status = Status.PENDING ∧ demoPending.transfer = none ∧
    0 ≤ demoPending.amount ∧
    (∃ s', ScheduledPayment.create_transfer demoStateP 0 = Except.ok s' ∧
      (∃ q, s'.payments[0]? = some q ∧
        ((q.status = Status.DONE ∧
          q.transfer = some demoStateP.transfers.length) ∨
         (q.status = Status.FAILED ∧ q.transfer = none)) ∧
        ¬(q.status = Status.DONE ∧ q.status = Status.FAILED)) ∧
      (s'.accounts demoPending.from_account).reserved_amount =
        (demoStateP.accounts demoPending.from_account).reserved_amount -
          demoPending.amount) :=
  ⟨rfl, rfl, rfl, by decide,
    c3_settlement_exclusivity demoStateP 0 demoPending rfl rfl rfl
      (by decide)⟩

/-- Shape of a cancellation invoked on an existing row: it always succeeds,
decrements the from-account's reservation by the row's amount and retags
the row CANCELED, regardless of the row's current status. -/
theorem cancel_spec (s : State) (i : Nat) (p : ScheduledPayment)
    (h : s.payments[i]? = some p) :
    ∃ s', ScheduledPayment.cancel s i = Except.ok s' ∧
      s'.transfers = s.transfers ∧
      (∀ x, (s'.accounts x).balance = (s.accounts x).balance) ∧
      (∀ x, (s'.accounts x).reserved_amount =
        (s.accounts x).reserved_amount +
          (if x = p.from_account then -p.amount else 0)) ∧
      s'.payments = s.payments.set i ({ p with status := Status.CANCELED }) := by
  unfold ScheduledPayment.cancel
  split
  · next hnone => rw [h] at hnone; exact absurd hnone (by simp)
  · next q hq =>
      rw [h, Option.some.injEq] at hq
      subst hq
      refine ⟨_, rfl, rfl, fun x => ?_, fun x => ?_, ?_⟩
      · dsimp only
        rw [adjustReserved_balance]
      · dsimp only
        rw [adjustReserved_reserved]
      · dsimp only
        rw [adjustReserved_payments]

/-- Shape of a successful schedule: reservation up by the amount on the
from-account only, one PENDING row appended, balances untouched. -/
theorem create_scheduled_ok_shape (s : State) (f t : Nat) (amt d : Int)
    (s' : State)
    (h : ScheduledPayment.create_scheduled_transfer s f t amt d =
      Except.ok s') :
    (∀ x, (s'.accounts x).reserved_amount =
      (s.accounts x).reserved_amount + (if x = f then amt else 0)) ∧
    (∀ x, (s'.accounts x).balance = (s.accounts x).balance) ∧
    s'.transfers = s.transfers ∧
    s'.payments = s.payments ++ [⟨f, t, amt, Status.PENDING, none, d⟩] := by
  unfold ScheduledPayment.create_scheduled_transfer at h
  by_cases h0 : amt < 0
  · rw [if_pos h0] at h
    exact absurd h (by simp)
  rw [if_neg h0] at h
  by_cases h1 : (s.accounts f).get_max_transfer_amount < amt
  · rw [if_pos h1] at h
    exact absurd h (by simp)
  rw [if_neg h1, Except.ok.injEq] at h
  subst h
  refine ⟨fun x => ?_, fun x => ?_, rfl, ?_⟩
  · dsimp only
    rw [adjustReserved_reserved]
  · dsimp only
    rw [adjustReserved_balance]
  · dsimp only
    rw [adjustReserved_payments]

/-- A settlement whose row carries a negative amount propagates
NegativeAmountException (the inner do_transfer raises it and only
InsufficientBalance is caught). -/
theorem create_transfer_neg (s : State) (i : Nat) (p : ScheduledPayment)
    (h : s.payments[i]? = some p) (hneg : p.amount < 0) :
    ScheduledPayment.create_transfer s i =
      Except.error TransferException.NegativeAmountException := by
  unfold ScheduledPayment.create_transfer
  split
  · next hnone => rw [h] at hnone; exact absurd hnone (by simp)
  · next q hq =>
      rw [h, Option.some.injEq] at hq
      subst hq
      rw [(do_transfer_error_iff s p.from_account p.to_account
        p.amount).1.mpr hneg]

/-- Settling a non-existent row is a no-op (the source method is always
invoked on a fetched row; the total model returns the state unchanged). -/
theorem create_transfer_none (s : State) (i : Nat)
    (h : s.payments[i]? = none) :
    ScheduledPayment.create_transfer s i = Except.ok s := by
  unfold ScheduledPayment.create_transfer
  split
  · rfl
  · next q hq => rw [h] at hq; exact absurd hq (by simp)

/-- Canceling a non-existent row is a no-op in the model. -/
theorem cancel_none (s : State) (i : Nat) (h : s.payments[i]? = none) :
    ScheduledPayment.cancel s i = Except.ok s := by
  unfold ScheduledPayment.cancel
  split
  · rfl
  · next q hq => rw [h] at hq; exact absurd hq (by simp)

/-- One guarded successful operation preserves the reservation invariant. -/
theorem reservedInvariant_step (s : State) (op : Op) (s1 : State)
    (hg : targetsPendingB s op = true) (hinv : reservedInvariant s)
    (hok : applyOp s op = Except.ok s1) : reservedInvariant s1 := by
  cases op with
  | schedule f t amt d =>
    simp only [applyOp] at hok
    obtain ⟨hres, -, -, hpay⟩ :=
      create_scheduled_ok_shape s f t amt d s1 hok
    intro a
    rw [hres a]
    unfold State.get_reserved_amount_for_scheduled_payment
    rw [hpay, pendingSum_append, pendingSum_cons, pendingSum_nil]
    have hi := hinv a
    unfold State.get_reserved_amount_for_scheduled_payment at hi
    rw [hi]
    by_cases haf : a = f
    · subst haf
      simp [contrib, pendingFor]
    · have haf2 : ¬ f = a := fun hfa => haf hfa.symm
      simp [contrib, pendingFor, haf, haf2]
  | settle i =>
    simp only [applyOp] at hok
    cases hp : s.payments[i]? with
    | none =>
      rw [create_transfer_none s i hp, Except.ok.injEq] at hok
      subst hok
      exact hinv
    | some p =>
      by_cases hamt : 0 ≤ p.amount
      · obtain ⟨s', hok', hres, hcases⟩ := create_transfer_spec s i p hp hamt
        rw [hok', Except.ok.injEq] at hok
        subst hok
        have hpending : p.status = Status.PENDING := by
          simp only [targetsPendingB] at hg
          rw [hp] at hg
          simpa using hg
        intro a
        rw [hres a]
        unfold State.get_reserved_amount_for_scheduled_payment
        have hi := hinv a
        unfold State.get_reserved_amount_for_scheduled_payment at hi
        rcases hcases with ⟨-, hpay⟩ | ⟨-, hpay⟩ <;>
          rw [hpay, pendingSum_set s.payments i p _ a hp, hi] <;>
          by_cases haf : a = p.from_account
        · subst haf
          simp [contrib, pendingFor, hpending]
          omega
        · have haf2 : ¬ p.from_account = a := fun hfa => haf hfa.symm
          simp [contrib, pendingFor, hpending, haf, haf2]
        · subst haf
          simp [contrib, pendingFor, hpending]
          omega
        · have haf2 : ¬ p.from_account = a := fun hfa => haf hfa.symm
          simp [contrib, pendingFor, hpending, haf, haf2]
      · have hneg := create_transfer_neg s i p hp (by omega)
        rw [hneg] at hok
        exact absurd hok (by simp)
  | cancel i =>
    simp only [applyOp] at hok
    cases hp : s.payments[i]? with
    | none =>
      rw [cancel_none s i hp, Except.ok.injEq] at hok
      subst hok
      exact hinv
    | some p =>
      obtain ⟨s', hok', -, -, hres, hpay⟩ := cancel_spec s i p hp
      rw [hok', Except.ok.injEq] at hok
      subst hok
      have hpending : p.status = Status.PENDING := by
        simp only [targetsPendingB] at hg
        rw [hp] at hg
        simpa using hg
      intro a
      rw [hres a]
      unfold State.get_reserved_amount_for_scheduled_payment
      have hi := hinv a
      unfold State.get_reserved_amount_for_scheduled_payment at hi
      rw [hpay, pendingSum_set s.payments i p _ a hp, hi]
      by_cases haf : a = p.from_account
      · subst haf
        simp [contrib, pendingFor, hpending]
        omega
      · have haf2 : ¬ p.from_account = a := fun hfa => haf hfa.symm
        simp [contrib, pendingFor, hpending, haf, haf2]

/-- C1 (amended): starting from any state satisfying the reservation
invariant, any sequence of successful schedule / settle / cancel operations
in which every settle and cancel targets a row still PENDING ends in a
state satisfying the invariant: every account's reserved_amount equals the
sum of its currently-PENDING scheduled payments. -/
theorem c1_reserved_invariant_guarded (ops : List Op) (s sf : State)
    (hinv : reservedInvariant s) (hrun : guardedRun s ops sf) :
    reservedInvariant sf := by
  induction ops generalizing s with
  | nil =>
    subst hrun
    exact hinv
  | cons op rest ih =>
    obtain ⟨hg, s1, hok, hrest⟩ := hrun
    exact ih s1 (reservedInvariant_step s op s1 hg hinv hok) hrest

/-- C1 counterexample: the three operations of `c1ops` all succeed from the
invariant-satisfying `demoState`, yet afterwards account 0 carries
reserved_amount -50 while its PENDING aggregate is 0 — the unguarded double
cancel releases the reservation twice, refuting the claim as stated. -/
theorem c1_counterexample :
    reservedInvariant demoState ∧
    (runOps demoState c1ops).toOption.map
        (fun s => ((s.accounts 0).reserved_amount,
          s.get_reserved_amount_for_scheduled_payment 0)) =
      some (-50, 0) ∧
    ¬ reservedInvariant ((runOps demoState c1ops).toOption.getD demoState) :=
  ⟨fun _ => rfl, rfl,
    fun hco => absurd (hco 0) (by decide)⟩

/-- C1 witness: the guarded schedule-then-cancel run from `demoState`
preserves the reservation invariant. -/
theorem c1_witness :
    reservedInvariant demoState ∧
    ∃ sf, guardedRun demoState c1wops sf ∧ reservedInvariant sf := by
  refine ⟨fun _ => rfl, _, ⟨rfl, _, rfl, rfl, _, rfl, rfl⟩, ?_⟩
  exact c1_reserved_invariant_guarded c1wops demoState _ (fun _ => rfl)
    ⟨rfl, _, rfl, rfl, _, rfl, rfl⟩

/-- C7: the code has no PENDING-only guard on cancel.  Invoking cancel on
the already-CANCELED payment of `demoStateC` does not fail with any
AlreadyTerminal-style error: it succeeds, decrements account 0's
reserved_amount a second time (0 to -100) and re-saves status CANCELED,
contradicting the claim that a cancel of a terminal payment fails and
leaves reservation and status unchanged. -/
theorem c7_cancel_terminal_bug :
    (ScheduledPayment.cancel demoStateC 0).toOption.map
        (fun s => ((s.accounts 0).reserved_amount,
          s.payments.map (fun p => p.status))) =
      some (-100, [Status.CANCELED]) := rfl

/-- C8: the scheduler loop of transfer/tasks.py has no per-item try/except.
On `demoStateLoop` the tick aborts at the first item with the escaping
NegativeAmountException and the second item is left PENDING, unsettled —
even though settling it alone would succeed (third conjunct) — refuting
per-item isolation for exceptions other than the absorbed
InsufficientBalance. -/
theorem c8_loop_abort_bug :
    (run_transfers_by_scheduled_payments demoStateLoop 0).2 =
      some TransferException.NegativeAmountException ∧
    (run_transfers_by_scheduled_payments demoStateLoop 0).1.payments.map
        (fun p => p.status) = [Status.PENDING, Status.PENDING] ∧
    ∃ s', ScheduledPayment.create_transfer demoStateLoop 1 = Except.ok s' ∧
      s'.payments.map (fun p => p.status) =
        [Status.PENDING, Status.DONE] := by
  refine ⟨rfl, rfl, _, rfl, rfl⟩
